import Mathlib

/-!
Shallow embedding of `SDLCAgent.py`: the `slugify` helper, the
markdown-fence stripping done by the three generation operations, the
`run_tests` runner wrapper, and the generate/test/fix session of `main`
(`MAX_ATTEMPTS`-bounded attempt loop with unconditional cleanup in the
`finally` block).  External effects (the LLM and the pytest subprocess)
are parameters of the embedding; the filesystem is an association list.
-/

/-! ## Character helpers -/

/-- The ASCII whitespace characters matched by Python's regex class
`\s` (space, tab, newline, carriage return, vertical tab, form feed).
Python also matches further Unicode whitespace; those characters are in
any case deleted by the following `[^a-z0-9\s]` filter, so the ASCII
set is the faithful restriction. -/
def pySpace (c : Char) : Bool :=
  c.toNat = 32 || c.toNat = 9 || c.toNat = 10 || c.toNat = 13 || c.toNat = 11 || c.toNat = 12

/-- True when `c` is an ASCII lowercase letter `a`–`z`. -/
def isLowerAZ (c : Char) : Bool := 97 ≤ c.toNat && c.toNat ≤ 122

/-- True when `c` is an ASCII digit `0`–`9`. -/
def isDigit09 (c : Char) : Bool := 48 ≤ c.toNat && c.toNat ≤ 57

/-- ASCII lowering, as done by `str.lower()` on the characters that can
survive the subsequent `[^a-z0-9\s]` filter. -/
def pyToLower (c : Char) : Char :=
  if 65 ≤ c.toNat ∧ c.toNat ≤ 90 then Char.ofNat (c.toNat + 32) else c

/-- The character class `[a-z0-9\s]` kept by `re.sub(r'[^a-z0-9\s]', '', text)`. -/
def isKeep (c : Char) : Bool := isLowerAZ c || isDigit09 c || pySpace c

/-- The slug output alphabet `[a-z0-9_]`. -/
def isSlugChar (c : Char) : Bool := isLowerAZ c || isDigit09 c || c == '_'

/-- The backtick character. -/
def backtick : Char := Char.ofNat 96

/-! ## `slugify` (`SDLCAgent.py` lines 204–214) -/

/-- Embeds `re.sub(r'\s+', '_', text)`: replace each maximal run of whitespace
with a single underscore.  The boolean flag records whether the
previous character was whitespace (i.e. we are inside a run). -/
def collapseWsAux : Bool → List Char → List Char
  | _, [] => []
  | prevSpace, c :: cs =>
    if pySpace c then
      if prevSpace then collapseWsAux true cs
      else '_' :: collapseWsAux true cs
    else c :: collapseWsAux false cs

/-- Python `str.strip('_')`: remove leading and trailing underscores. -/
def stripUnders (l : List Char) : List Char :=
  ((l.dropWhile (fun c => c == '_')).reverse.dropWhile (fun c => c == '_')).reverse

/-- The body of `slugify` on the character list: lowercase, keep `[a-z0-9\s]`,
collapse whitespace runs to `_`, strip outer `_`, truncate to 50. -/
def slugifyL (l : List Char) : List Char :=
  (stripUnders (collapseWsAux false ((l.map pyToLower).filter isKeep))).take 50

/-- The function `slugify(text)` from the source. -/
def slugify (s : String) : String := String.mk (slugifyL s.data)

/-! ## Markdown-fence stripping (lines 63–69, 104–109, 192–198) -/

/-- Defined as `l.take (l.length - n)`: Python's `s[:-n]` tail removal. -/
def rdropL (l : List Char) (n : Nat) : List Char := l.take (l.length - n)

/-- Python `str.strip()`: remove whitespace from both ends
(right end first; the order does not matter). -/
def pyStripL (l : List Char) : List Char :=
  ((l.reverse.dropWhile pySpace).reverse).dropWhile pySpace

/-- Python `str.strip()` on strings. -/
def pyStrip (s : String) : String := String.mk (pyStripL s.data)

/-- Python `str.startswith(pat)` on character lists (pattern first). -/
def startsWithL : List Char → List Char → Bool
  | [], _ => true
  | _ :: _, [] => false
  | p :: ps, c :: cs => p == c && startsWithL ps cs

/-- The response clean-up shared by `generate_code`, `generate_unit_tests`
and `fix_code`:
`s = raw.strip()`;
if `s.startswith(f"\x60\x60\x60{language}")` then
`s = s[len(f"\x60\x60\x60{language}\n"):-3].strip()`;
elif `s.startswith("\x60\x60\x60")` then `s = s[3:-3].strip()`. -/
def stripFencesL (lang l : List Char) : List Char :=
  let s := pyStripL l
  if startsWithL ([backtick, backtick, backtick] ++ lang) s then
    pyStripL (rdropL (s.drop (lang.length + 4)) 3)
  else if startsWithL [backtick, backtick, backtick] s then
    pyStripL (rdropL (s.drop 3) 3)
  else s

/-- Fence stripping on strings. -/
def stripFences (lang raw : String) : String := String.mk (stripFencesL lang.data raw.data)

/-- A well-formed fenced response: the body surrounded by
```` ```lang ```` and ```` ``` ```` markers. -/
def fenced (lang body : String) : String :=
  "```" ++ lang ++ "\n" ++ body ++ "\n```"

/-! ## Filesystem model -/

/-- The working directory: an association list from file name to content.
`fsWrite` overwrites in place, `fsRemove` is a no-op on absent names. -/
abbrev FS := List (String × String)

/-- Models `open(name, "w").write(content)`: create or overwrite. -/
def fsWrite (fs : FS) (name content : String) : FS :=
  (name, content) :: fs.filter (fun p => p.1 != name)

/-- Models `os.path.exists(name)`. -/
def fsExists (fs : FS) (name : String) : Bool := fs.any (fun p => p.1 == name)

/-- The content stored under `name`, if any. -/
def fsRead (fs : FS) (name : String) : Option String :=
  (fs.find? (fun p => p.1 == name)).map (fun p => p.2)

/-- Models `if os.path.exists(name): os.remove(name)`. -/
def fsRemove (fs : FS) (name : String) : FS := fs.filter (fun p => p.1 != name)

/-! ## The Oracle (LLM) and the agent operations -/

/-- The abstract LLM: one response per prompt family, keyed by the prompt
inputs.  `Except.error` models `model.generate_content` raising. -/
structure Model where
  codeResp : String → String → Except String String
  testsResp : String → String → Except String String
  fixResp : String → String → String → String → String → Except String String

/-- Embeds `CodeGenerationAgent.generate_code` (lines 41–73): call the model,
strip fences, re-raise API failures as `RuntimeError`. -/
def generate_code (m : Model) (requirement language : String) : Except String String :=
  match m.codeResp requirement language with
  | .error e => .error ("Google AI API call failed in generate_code: " ++ e)
  | .ok t => .ok (stripFences language t)

/-- Embeds `CodeGenerationAgent.generate_unit_tests` (lines 75–113). -/
def generate_unit_tests (m : Model) (code_snippet language : String) : Except String String :=
  match m.testsResp code_snippet language with
  | .error e => .error ("Google AI API call failed in generate_unit_tests: " ++ e)
  | .ok t => .ok (stripFences language t)

/-- Embeds `CodeGenerationAgent.fix_code` (lines 151–202). -/
def fix_code (m : Model) (requirement failing_code test_code error_output language : String) :
    Except String String :=
  match m.fixResp requirement failing_code test_code error_output language with
  | .error e => .error ("Google AI API call failed in fix_code: " ++ e)
  | .ok t => .ok (stripFences language t)

/-- Embeds `CodeGenerationAgent.run_tests` (lines 115–149): if the test file is
missing, report failure with the not-found message; otherwise return the
subprocess outcome `res` (exit-code flag, combined stdout+stderr).  The
subprocess `try/except` never raises: every branch returns a pair. -/
def run_tests (fs : FS) (res : Bool × String) (test_filename : String) : Bool × String :=
  if fsExists fs test_filename then res
  else (false, "Error: Test file not found at " ++ test_filename)

/-! ## The session orchestrator (`main`, lines 217–318) -/

/-- The terminal outcome of a session. -/
inductive SessionResult where
  | success (attemptsUsed : Nat) (finalCode : String)
  | exhausted (lastCode lastDiag : String)
  | fatalError (cause : String)
deriving DecidableEq

/-- The `attemptsUsed` of a successful session. -/
def SessionResult.attempts? : SessionResult → Option Nat
  | .success k _ => some k
  | _ => none

/-- The session ran out of attempts (a non-success distinct from fatal error). -/
def SessionResult.isExhausted : SessionResult → Bool
  | .exhausted _ _ => true
  | _ => false

/-- The session ended with a fatal error. -/
def SessionResult.isFatal : SessionResult → Bool
  | .fatalError _ => true
  | _ => false

/-- State leaving the test-and-fix loop: outcome, filesystem, number of
`run_tests` calls, number of `fix_code` calls, and the ordered trace of
file writes performed so far in the session. -/
structure LoopOut where
  result : SessionResult
  fs : FS
  runnerCalls : Nat
  fixCalls : Nat
  writes : List (String × String)
deriving DecidableEq

/-- The `for attempt in range(MAX_ATTEMPTS)` loop of `main` (lines
278–299).  `backend i` is the pytest subprocess outcome of the `i`-th
runner invocation (0-based).  `remaining` counts the iterations still to
run, so the 1-based attempt index of the current iteration is
`N - remaining + 1` and the Python guard `attempt < MAX_ATTEMPTS - 1`
is `0 < remaining - 1`.  When the loop ends without a success the
session is exhausted (for `remaining = 0`, i.e. `MAX_ATTEMPTS = 0`,
`range` is empty and the loop body never runs). -/
def testFixLoop (m : Model) (backend : Nat → Bool × String)
    (req lang codeName testName tests : String) (N : Nat) :
    Nat → String → FS → Nat → Nat → List (String × String) → LoopOut
  | 0, code, fs, rc, fc, ws => ⟨.exhausted code "", fs, rc, fc, ws⟩
  | r + 1, code, fs, rc, fc, ws =>
    let res := run_tests fs (backend rc) testName
    if res.1 then
      ⟨.success (N - r) code, fs, rc + 1, fc, ws⟩
    else if 0 < r then
      match fix_code m req code tests res.2 lang with
      | .error e => ⟨.fatalError e, fs, rc + 1, fc, ws⟩
      | .ok nc =>
        testFixLoop m backend req lang codeName testName tests N r nc
          (fsWrite fs codeName nc) (rc + 1) (fc + 1) (ws ++ [(codeName, nc)])
    else
      ⟨.exhausted code res.2, fs, rc + 1, fc, ws⟩

/-- Result of a whole session: terminal outcome, filesystem before and
after the `finally` cleanup, call counters, write trace, and how many
times the cleanup block ran. -/
structure SessionOut where
  result : SessionResult
  fsPre : FS
  fs : FS
  runnerCalls : Nat
  fixCalls : Nat
  writes : List (String × String)
  cleanupRuns : Nat
deriving DecidableEq

/-- The `finally` block (lines 310–318): for each of the code file and
the test file, remove it if it exists.  The log file is not touched. -/
def cleanupFS (fs : FS) (codeName testName : String) : FS :=
  fsRemove (fsRemove fs codeName) testName

/-- The code file name `f"{base_filename}.py"` (line 254). -/
def codeFileName (req : String) : String := slugify req ++ ".py"

/-- The test file name `f"test_{base_filename}.py"` (line 255). -/
def testFileName (req : String) : String := "test_" ++ slugify req ++ ".py"

/-- The log file name `f"{base_filename}_{timestamp}.log"` (line 249); the strftime format
`%Y%m%d_%H%M%S` always yields a 15-character timestamp. -/
def logFileName (req timestamp : String) : String :=
  slugify req ++ "_" ++ timestamp ++ ".log"

/-- One session of `main` (lines 241–318): create the log file, generate
code and write it, generate tests and write them, run the attempt loop;
a `RuntimeError` from any generation call aborts to the `except` block
as a critical (fatal) error; the `finally` block always runs the
cleanup exactly once. -/
def runSession (m : Model) (backend : Nat → Bool × String) (N : Nat)
    (requirement timestamp : String) : SessionOut :=
  let logName := logFileName requirement timestamp
  let codeName := codeFileName requirement
  let testName := testFileName requirement
  let fs0 : FS := fsWrite [] logName ""
  let ws0 : List (String × String) := [(logName, "")]
  match generate_code m requirement "python" with
  | .error e => ⟨.fatalError e, fs0, cleanupFS fs0 codeName testName, 0, 0, ws0, 1⟩
  | .ok code =>
    let fs1 := fsWrite fs0 codeName code
    let ws1 := ws0 ++ [(codeName, code)]
    match generate_unit_tests m code "python" with
    | .error e => ⟨.fatalError e, fs1, cleanupFS fs1 codeName testName, 0, 0, ws1, 1⟩
    | .ok tests =>
      let fs2 := fsWrite fs1 testName tests
      let ws2 := ws1 ++ [(testName, tests)]
      let lo := testFixLoop m backend requirement "python" codeName testName tests N N code fs2 0 0 ws2
      ⟨lo.result, lo.fs, cleanupFS lo.fs codeName testName, lo.runnerCalls, lo.fixCalls, lo.writes, 1⟩

/-! ## Lemmas about `slugify` -/

theorem mem_dropWhile (p : Char → Bool) (l : List Char) (c : Char)
    (h : c ∈ l.dropWhile p) : c ∈ l := by
  induction l with
  | nil => simp [List.dropWhile] at h
  | cons a l ih =>
    rw [List.dropWhile] at h
    cases hp : p a with
    | true => rw [hp] at h; exact List.mem_cons_of_mem a (ih h)
    | false => rw [hp] at h; exact h

theorem dropWhile_eq_self_of (p : Char → Bool) (l : List Char)
    (h : ∀ c ∈ l, p c = false) : l.dropWhile p = l := by
  cases l with
  | nil => rfl
  | cons a l => rw [List.dropWhile, h a (List.mem_cons_self a l)]

theorem mem_stripUnders (l : List Char) (c : Char) (h : c ∈ stripUnders l) : c ∈ l := by
  unfold stripUnders at h
  rw [List.mem_reverse] at h
  have h1 := mem_dropWhile _ _ _ h
  rw [List.mem_reverse] at h1
  exact mem_dropWhile _ _ _ h1

theorem stripUnders_eq_self (l : List Char) (h : ∀ c ∈ l, (c == '_') = false) :
    stripUnders l = l := by
  unfold stripUnders
  rw [dropWhile_eq_self_of _ _ h, dropWhile_eq_self_of, List.reverse_reverse]
  intro c hc
  exact h c (List.mem_reverse.mp hc)

theorem collapseWs_chars (l : List Char) (b : Bool)
    (h : ∀ c ∈ l, isKeep c = true) :
    ∀ c ∈ collapseWsAux b l, isSlugChar c = true := by
  induction l generalizing b with
  | nil => intro c hc; simp [collapseWsAux] at hc
  | cons a l ih =>
    intro c hc
    have ha := h a (List.mem_cons_self a l)
    have hrest : ∀ c ∈ l, isKeep c = true := fun c hc => h c (List.mem_cons_of_mem a hc)
    rw [collapseWsAux] at hc
    by_cases hs : pySpace a
    · rw [if_pos hs] at hc
      cases b with
      | true => exact ih true hrest c hc
      | false =>
        rw [if_neg (by decide)] at hc
        rcases List.mem_cons.mp hc with rfl | hc
        · decide
        · exact ih true hrest c hc
    · rw [if_neg hs] at hc
      rcases List.mem_cons.mp hc with rfl | hc
      · simp only [isKeep, Bool.or_eq_true] at ha
        simp only [isSlugChar, Bool.or_eq_true]
        rcases ha with ha | ha
        · exact Or.inl ha
        · exact absurd ha hs
      · exact ih false hrest c hc

theorem collapseWs_eq_self (l : List Char) (h : ∀ c ∈ l, pySpace c = false) :
    collapseWsAux false l = l := by
  induction l with
  | nil => rfl
  | cons a l ih =>
    rw [collapseWsAux, if_neg]
    · rw [ih fun c hc => h c (List.mem_cons_of_mem a hc)]
    · simp [h a (List.mem_cons_self a l)]

theorem map_pyToLower_eq_self (l : List Char)
    (h : ∀ c ∈ l, (isLowerAZ c || isDigit09 c) = true) : l.map pyToLower = l := by
  induction l with
  | nil => rfl
  | cons a l ih =>
    have ha := h a (List.mem_cons_self a l)
    simp only [isLowerAZ, isDigit09, Bool.or_eq_true, Bool.and_eq_true, decide_eq_true_eq] at ha
    rw [List.map_cons, ih fun c hc => h c (List.mem_cons_of_mem a hc)]
    have : pyToLower a = a := by
      unfold pyToLower
      rw [if_neg]; omega
    rw [this]

theorem slugifyL_chars (l : List Char) :
    (slugifyL l).length ≤ 50 ∧ ∀ c ∈ slugifyL l, isSlugChar c = true := by
  constructor
  · unfold slugifyL
    rw [List.length_take]
    exact Nat.min_le_left _ _
  · intro c hc
    unfold slugifyL at hc
    have h1 := mem_stripUnders _ _ (List.take_subset _ _ hc)
    exact collapseWs_chars _ false (fun d hd => List.of_mem_filter hd) c h1

theorem slugifyL_fix (l : List Char)
    (halnum : ∀ c ∈ l, (isLowerAZ c || isDigit09 c) = true)
    (hlen : l.length ≤ 50) : slugifyL l = l := by
  have hnospace : ∀ c ∈ l, pySpace c = false := by
    intro c hc
    have := halnum c hc
    simp only [isLowerAZ, isDigit09, Bool.or_eq_true, Bool.and_eq_true, decide_eq_true_eq] at this
    simp only [pySpace, Bool.or_eq_false_iff, decide_eq_false_iff_not]
    omega
  have hnounder : ∀ c ∈ l, (c == '_') = false := by
    intro c hc
    have h2 := halnum c hc
    rw [Bool.eq_false_iff]
    intro hbe
    rw [beq_iff_eq] at hbe
    subst hbe
    exact absurd h2 (by decide)
  unfold slugifyL
  rw [map_pyToLower_eq_self l halnum, List.filter_eq_self.mpr (fun c hc => by
    simp only [isKeep]
    rw [show (isLowerAZ c || isDigit09 c) = true from halnum c hc, Bool.true_or]),
    collapseWs_eq_self l hnospace, stripUnders_eq_self l hnounder,
    List.take_of_length_le hlen]

/-- Claim C8: for every input string, including the empty string and
strings containing only punctuation, `slugify` returns (without any
error path) a string of at most 50 characters drawn only from lowercase
ASCII letters, digits, and underscore — i.e. it matches
`^[a-z0-9_]{0,50}$`. -/
theorem C8_slugify_shape (s : String) :
    (slugify s).length ≤ 50 ∧ (slugify s).data.all isSlugChar = true := by
  have h := slugifyL_chars s.data
  exact ⟨h.1, List.all_eq_true.mpr h.2⟩

/-- Claim C8 witness at concrete inputs (empty and punctuation-only). -/
theorem C8_slugify_shape_witness :
    (slugify "").length ≤ 50 ∧ (slugify "").data.all isSlugChar = true := C8_slugify_shape ""

/-- Claim C7, counterexample: `slugify` is not idempotent on every
input.  `slugify "a b" = "a_b"`, but a second application deletes the
underscore (the filter `[^a-z0-9\s]` drops it), giving `"ab"`. -/
theorem C7_slugify_not_idempotent :
    slugify (slugify "a b") ≠ slugify "a b" := by decide

/-- Claim C7, amended: `slugify` is deterministic (it is a pure
function of its input in the embedding), and it is idempotent on every
input whose slug contains no underscore — i.e. whenever
`slugify x` is underscore-free, `slugify (slugify x) = slugify x`.
(On inputs with internal whitespace the slug contains `_`, which a
second application deletes, so full idempotence fails.) -/
theorem C7_slugify_idempotent_underscore_free (x : String)
    (h : '_' ∉ (slugify x).data) : slugify (slugify x) = slugify x := by
  have hs := slugifyL_chars x.data
  have halnum : ∀ c ∈ slugifyL x.data, (isLowerAZ c || isDigit09 c) = true := by
    intro c hc
    have h1 := hs.2 c hc
    simp only [isSlugChar, Bool.or_eq_true, beq_iff_eq] at h1
    rcases h1 with h1 | h1
    · rw [Bool.or_eq_true]; exact h1
    · exact absurd (h1 ▸ hc) h
  have hfix := slugifyL_fix (slugifyL x.data) halnum hs.1
  show String.mk (slugifyL (slugifyL x.data)) = String.mk (slugifyL x.data)
  rw [hfix]

/-- Claim C7 witness: the amended idempotence at `"even123"`. -/
theorem C7_slugify_idempotent_witness :
    '_' ∉ (slugify "even123").data ∧ slugify (slugify "even123") = slugify "even123" :=
  ⟨by decide, C7_slugify_idempotent_underscore_free "even123" (by decide)⟩

/-! ## Lemmas about fence stripping -/

theorem startsWithL_append (p rest : List Char) : startsWithL p (p ++ rest) = true := by
  induction p with
  | nil => rfl
  | cons a p ih => simp [startsWithL, ih]

theorem mem_pyStripL (l : List Char) (c : Char) (h : c ∈ pyStripL l) : c ∈ l := by
  unfold pyStripL at h
  have h1 := mem_dropWhile _ _ _ h
  rw [List.mem_reverse] at h1
  have h2 := mem_dropWhile _ _ _ h1
  rw [List.mem_reverse] at h2
  exact h2

theorem pyStripL_append_space (l : List Char) (c : Char) (h : pySpace c = true) :
    pyStripL (l ++ [c]) = pyStripL l := by
  unfold pyStripL
  rw [List.reverse_append, List.reverse_singleton, List.singleton_append,
    List.dropWhile_cons, h]
  simp

theorem pyStripL_of_ends (a c : Char) (mid : List Char)
    (ha : pySpace a = false) (hc : pySpace c = false) :
    pyStripL (a :: (mid ++ [c])) = a :: (mid ++ [c]) := by
  unfold pyStripL
  have h1 : (a :: (mid ++ [c])).reverse = c :: (mid.reverse ++ [a]) := by
    rw [List.reverse_cons, List.reverse_append, List.reverse_singleton,
      List.singleton_append, List.cons_append]
  rw [h1, List.dropWhile_cons, hc]
  simp only [Bool.false_eq_true, if_false]
  rw [← h1, List.reverse_reverse, List.dropWhile_cons, ha]
  simp only [Bool.false_eq_true, if_false]

theorem pySpace_backtick : pySpace backtick = false := by decide

theorem stripFencesL_fence (lg bd : List Char) :
    stripFencesL lg
      (((([backtick, backtick, backtick] ++ lg) ++ ['\n']) ++ bd) ++
        ('\n' :: [backtick, backtick, backtick])) = pyStripL bd := by
  set raw : List Char :=
    ((([backtick, backtick, backtick] ++ lg) ++ ['\n']) ++ bd) ++
      ('\n' :: [backtick, backtick, backtick]) with hraw
  have hshape : raw = backtick ::
      (([backtick, backtick] ++ lg ++ ['\n'] ++ bd ++ ['\n', backtick, backtick]) ++ [backtick]) := by
    simp [hraw, List.append_assoc]
  have hstrip : pyStripL raw = raw := by
    rw [hshape]
    exact pyStripL_of_ends _ _ _ pySpace_backtick pySpace_backtick
  have hsplit : raw = ([backtick, backtick, backtick] ++ lg) ++
      (['\n'] ++ (bd ++ ('\n' :: [backtick, backtick, backtick]))) := by
    simp [hraw, List.append_assoc]
  have hcond : startsWithL ([backtick, backtick, backtick] ++ lg) raw = true := by
    rw [hsplit]
    exact startsWithL_append _ _
  have hsplit2 : raw = (([backtick, backtick, backtick] ++ lg) ++ ['\n']) ++
      (bd ++ ('\n' :: [backtick, backtick, backtick])) := by
    simp [hraw, List.append_assoc]
  have hlen : lg.length + 4 = (([backtick, backtick, backtick] ++ lg) ++ ['\n']).length := by
    simp
  have hdrop : raw.drop (lg.length + 4) = bd ++ ('\n' :: [backtick, backtick, backtick]) := by
    rw [hsplit2, hlen, List.drop_left]
  have hrdrop : rdropL (bd ++ ('\n' :: [backtick, backtick, backtick])) 3 = bd ++ ['\n'] := by
    unfold rdropL
    have hl : (bd ++ ('\n' :: [backtick, backtick, backtick])).length - 3 = bd.length + 1 := by
      simp
    rw [hl, List.take_append 1]
    rfl
  unfold stripFencesL
  simp only [hstrip, hcond, if_true]
  rw [hdrop, hrdrop, pyStripL_append_space bd '\n' (by decide)]

theorem fenced_data (lang body : String) :
    (fenced lang body).data =
      ((([backtick, backtick, backtick] ++ lang.data) ++ ['\n']) ++ body.data) ++
        ('\n' :: [backtick, backtick, backtick]) := by
  simp only [fenced, String.data_append]
  rfl

theorem stripFences_fenced (lang body : String) :
    stripFences lang (fenced lang body) = pyStrip body := by
  unfold stripFences pyStrip
  rw [fenced_data, stripFencesL_fence]

theorem pyStripL_cons_space (c : Char) (l : List Char) (h : pySpace c = true) :
    pyStripL (c :: l) = pyStripL l := by
  unfold pyStripL
  rw [List.reverse_cons, List.dropWhile_append]
  cases he : (l.reverse.dropWhile pySpace).isEmpty with
  | true =>
    rw [if_pos rfl, List.isEmpty_iff.mp he]
    rw [List.dropWhile_cons, h]
    simp
  | false =>
    rw [if_neg (by simp)]
    rw [List.reverse_append, List.reverse_singleton, List.singleton_append,
      List.dropWhile_cons, h]
    simp

theorem stripFencesL_bare (lg bd : List Char) (c0 : Char) (lg0 : List Char)
    (hlg : lg = c0 :: lg0) (hc0 : (c0 == '\n') = false) :
    stripFencesL lg
      ((([backtick, backtick, backtick] ++ ['\n']) ++ bd) ++
        ('\n' :: [backtick, backtick, backtick])) = pyStripL bd := by
  set raw : List Char :=
    (([backtick, backtick, backtick] ++ ['\n']) ++ bd) ++
      ('\n' :: [backtick, backtick, backtick]) with hraw
  have hshape : raw = backtick ::
      (([backtick, backtick] ++ ['\n'] ++ bd ++ ['\n', backtick, backtick]) ++ [backtick]) := by
    simp [hraw, List.append_assoc]
  have hstrip : pyStripL raw = raw := by
    rw [hshape]
    exact pyStripL_of_ends _ _ _ pySpace_backtick pySpace_backtick
  have hcons : raw = backtick :: backtick :: backtick :: '\n' ::
      (bd ++ ('\n' :: [backtick, backtick, backtick])) := by
    simp [hraw, List.append_assoc]
  have hcond1 : startsWithL ([backtick, backtick, backtick] ++ lg) raw = false := by
    rw [hlg, hcons]
    simp only [List.cons_append, List.nil_append, startsWithL, beq_self_eq_true,
      Bool.true_and]
    rw [hc0, Bool.false_and]
  have hcond2 : startsWithL [backtick, backtick, backtick] raw = true := by
    rw [show raw = [backtick, backtick, backtick] ++
        ('\n' :: (bd ++ ('\n' :: [backtick, backtick, backtick]))) from by
      simp [hraw, List.append_assoc]]
    exact startsWithL_append _ _
  have hdrop : raw.drop 3 = '\n' :: (bd ++ ('\n' :: [backtick, backtick, backtick])) := by
    rw [hcons]
    rfl
  have hrdrop : rdropL ('\n' :: (bd ++ ('\n' :: [backtick, backtick, backtick]))) 3
      = '\n' :: (bd ++ ['\n']) := by
    unfold rdropL
    have hl : ('\n' :: (bd ++ ('\n' :: [backtick, backtick, backtick]))).length - 3
        = bd.length + 2 := by
      simp
    rw [hl, show bd.length + 2 = (bd.length + 1) + 1 from rfl, List.take_succ_cons,
      List.take_append 1]
    rfl
  unfold stripFencesL
  simp only [hstrip, hcond1, hcond2]
  rw [if_pos trivial]
  rw [hdrop, hrdrop]
  rw [show ('\n' :: (bd ++ ['\n'])) = ('\n' :: bd) ++ ['\n'] from by simp,
    pyStripL_append_space _ '\n' (by decide),
    pyStripL_cons_space '\n' bd (by decide)]
  rw [if_neg (by simp)]

theorem stripFences_bare_fenced (lang body : String) (c0 : Char) (lg0 : List Char)
    (hlang : lang.data = c0 :: lg0) (hc0 : (c0 == '\n') = false) :
    stripFences lang (fenced "" body) = pyStrip body := by
  unfold stripFences pyStrip
  rw [fenced_data]
  rw [show ("" : String).data = [] from rfl]
  simp only [List.append_nil]
  rw [stripFencesL_bare lang.data body.data c0 lg0 hlang hc0]

/-- Claim C9: each of the three generation operations strips any
surrounding markdown fence from the Oracle response before the content
is used, through both branches of the source clean-up: on a response of
the language-tagged form ```` ```lang\n<body>\n``` ```` the first
branch fires, and on a response with a bare ```` ```\n<body>\n``` ````
fence (no language tag, so the `startswith` of the first branch fails
for any non-empty language not beginning with a newline) the `elif`
branch fires; in both cases `generate_code`, `generate_unit_tests` and
`fix_code` all return the bare (stripped) body, and a body containing
no backtick yields content with no fence marker remaining. -/
theorem C9_fence_stripping (m : Model)
    (req req2 lang code code2 fl fl2 ts ts2 diag diag2
      codeBody testBody fixBody codeBody2 testBody2 fixBody2 : String)
    (c0 : Char) (lg0 : List Char)
    (hlang : lang.data = c0 :: lg0) (hc0 : (c0 == '\n') = false)
    (h1 : m.codeResp req lang = Except.ok (fenced lang codeBody))
    (h2 : m.testsResp code lang = Except.ok (fenced lang testBody))
    (h3 : m.fixResp req fl ts diag lang = Except.ok (fenced lang fixBody))
    (h4 : m.codeResp req2 lang = Except.ok (fenced "" codeBody2))
    (h5 : m.testsResp code2 lang = Except.ok (fenced "" testBody2))
    (h6 : m.fixResp req2 fl2 ts2 diag2 lang = Except.ok (fenced "" fixBody2)) :
    generate_code m req lang = Except.ok (pyStrip codeBody) ∧
    generate_unit_tests m code lang = Except.ok (pyStrip testBody) ∧
    fix_code m req fl ts diag lang = Except.ok (pyStrip fixBody) ∧
    generate_code m req2 lang = Except.ok (pyStrip codeBody2) ∧
    generate_unit_tests m code2 lang = Except.ok (pyStrip testBody2) ∧
    fix_code m req2 fl2 ts2 diag2 lang = Except.ok (pyStrip fixBody2) ∧
    (∀ body : String, backtick ∉ body.data → backtick ∉ (pyStrip body).data) := by
  refine ⟨?_, ?_, ?_, ?_, ?_, ?_, ?_⟩
  · unfold generate_code
    simp only [h1]
    rw [stripFences_fenced]
  · unfold generate_unit_tests
    simp only [h2]
    rw [stripFences_fenced]
  · unfold fix_code
    simp only [h3]
    rw [stripFences_fenced]
  · unfold generate_code
    simp only [h4]
    rw [stripFences_bare_fenced lang codeBody2 c0 lg0 hlang hc0]
  · unfold generate_unit_tests
    simp only [h5]
    rw [stripFences_bare_fenced lang testBody2 c0 lg0 hlang hc0]
  · unfold fix_code
    simp only [h6]
    rw [stripFences_bare_fenced lang fixBody2 c0 lg0 hlang hc0]
  · intro body hb hmem
    exact hb (mem_pyStripL _ _ hmem)

/-- Claim C9 witness: one concrete model answers with language-tagged
fences on the first set of inputs and bare fences on the second; all
three operations strip both fence forms down to the bodies. -/
theorem C9_fence_stripping_witness :
    generate_code
        ⟨fun r _ => if r == "r1" then Except.ok (fenced "python" "def f(x): return x")
            else Except.ok (fenced "" "def g(x): return x"),
         fun c _ => if c == "c1" then Except.ok (fenced "python" "def test_f(): assert True")
            else Except.ok (fenced "" "def test_g(): assert True"),
         fun r _ _ _ _ => if r == "r1" then Except.ok (fenced "python" "def f(x): return x + 1")
            else Except.ok (fenced "" "def g(x): return x + 1")⟩
        "r1" "python" = Except.ok (pyStrip "def f(x): return x") ∧
    generate_unit_tests
        ⟨fun r _ => if r == "r1" then Except.ok (fenced "python" "def f(x): return x")
            else Except.ok (fenced "" "def g(x): return x"),
         fun c _ => if c == "c1" then Except.ok (fenced "python" "def test_f(): assert True")
            else Except.ok (fenced "" "def test_g(): assert True"),
         fun r _ _ _ _ => if r == "r1" then Except.ok (fenced "python" "def f(x): return x + 1")
            else Except.ok (fenced "" "def g(x): return x + 1")⟩
        "c1" "python" = Except.ok (pyStrip "def test_f(): assert True") ∧
    fix_code
        ⟨fun r _ => if r == "r1" then Except.ok (fenced "python" "def f(x): return x")
            else Except.ok (fenced "" "def g(x): return x"),
         fun c _ => if c == "c1" then Except.ok (fenced "python" "def test_f(): assert True")
            else Except.ok (fenced "" "def test_g(): assert True"),
         fun r _ _ _ _ => if r == "r1" then Except.ok (fenced "python" "def f(x): return x + 1")
            else Except.ok (fenced "" "def g(x): return x + 1")⟩
        "r1" "bad" "tests" "diag" "python" = Except.ok (pyStrip "def f(x): return x + 1") ∧
    generate_code
        ⟨fun r _ => if r == "r1" then Except.ok (fenced "python" "def f(x): return x")
            else Except.ok (fenced "" "def g(x): return x"),
         fun c _ => if c == "c1" then Except.ok (fenced "python" "def test_f(): assert True")
            else Except.ok (fenced "" "def test_g(): assert True"),
         fun r _ _ _ _ => if r == "r1" then Except.ok (fenced "python" "def f(x): return x + 1")
            else Except.ok (fenced "" "def g(x): return x + 1")⟩
        "r2" "python" = Except.ok (pyStrip "def g(x): return x") ∧
    generate_unit_tests
        ⟨fun r _ => if r == "r1" then Except.ok (fenced "python" "def f(x): return x")
            else Except.ok (fenced "" "def g(x): return x"),
         fun c _ => if c == "c1" then Except.ok (fenced "python" "def test_f(): assert True")
            else Except.ok (fenced "" "def test_g(): assert True"),
         fun r _ _ _ _ => if r == "r1" then Except.ok (fenced "python" "def f(x): return x + 1")
            else Except.ok (fenced "" "def g(x): return x + 1")⟩
        "c2" "python" = Except.ok (pyStrip "def test_g(): assert True") ∧
    fix_code
        ⟨fun r _ => if r == "r1" then Except.ok (fenced "python" "def f(x): return x")
            else Except.ok (fenced "" "def g(x): return x"),
         fun c _ => if c == "c1" then Except.ok (fenced "python" "def test_f(): assert True")
            else Except.ok (fenced "" "def test_g(): assert True"),
         fun r _ _ _ _ => if r == "r1" then Except.ok (fenced "python" "def f(x): return x + 1")
            else Except.ok (fenced "" "def g(x): return x + 1")⟩
        "r2" "bad2" "tests2" "diag2" "python" = Except.ok (pyStrip "def g(x): return x + 1") ∧
    (∀ body : String, backtick ∉ body.data → backtick ∉ (pyStrip body).data) :=
  C9_fence_stripping _ "r1" "r2" "python" "c1" "c2" "bad" "bad2" "tests" "tests2"
    "diag" "diag2"
    "def f(x): return x" "def test_f(): assert True" "def f(x): return x + 1"
    "def g(x): return x" "def test_g(): assert True" "def g(x): return x + 1"
    'p' "ython".data rfl rfl
    rfl rfl rfl rfl rfl rfl

/-! ## Filesystem lemmas -/

theorem fsExists_fsWrite_self (fs : FS) (n c : String) :
    fsExists (fsWrite fs n c) n = true := by
  simp [fsExists, fsWrite]

theorem fsExists_filter_ne (fs : FS) (n q : String) (h : q ≠ n) :
    ((fs.filter fun p => p.1 != n).any fun p => p.1 == q) = (fs.any fun p => p.1 == q) := by
  induction fs with
  | nil => rfl
  | cons a fs ih =>
    rw [List.filter_cons]
    by_cases hn : a.1 = n
    · have h1 : (a.1 != n) = false := by simp [hn]
      have h2 : (a.1 == q) = false := by
        rw [beq_eq_false_iff_ne, hn]
        exact fun hh => h hh.symm
      rw [h1, if_neg (by simp), List.any_cons, h2, Bool.false_or, ih]
    · have h1 : (a.1 != n) = true := by simp [hn]
      rw [h1, if_pos rfl, List.any_cons, List.any_cons, ih]

theorem fsExists_fsWrite_ne (fs : FS) (n c q : String) (h : q ≠ n) :
    fsExists (fsWrite fs n c) q = fsExists fs q := by
  unfold fsExists fsWrite
  rw [List.any_cons]
  have h2 : (n == q) = false := by
    rw [beq_eq_false_iff_ne]
    exact fun hh => h hh.symm
  rw [h2, Bool.false_or, fsExists_filter_ne fs n q h]

theorem fsRead_fsWrite_self (fs : FS) (n c : String) :
    fsRead (fsWrite fs n c) n = some c := by
  simp [fsRead, fsWrite]

theorem fsRead_filter_ne (fs : FS) (n q : String) (h : q ≠ n) :
    ((fs.filter fun p => p.1 != n).find? fun p => p.1 == q) = (fs.find? fun p => p.1 == q) := by
  induction fs with
  | nil => rfl
  | cons a fs ih =>
    rw [List.filter_cons]
    by_cases hn : a.1 = n
    · have h1 : (a.1 != n) = false := by simp [hn]
      have h2 : (a.1 == q) = false := by
        rw [beq_eq_false_iff_ne, hn]
        exact fun hh => h hh.symm
      rw [h1, if_neg (by simp), List.find?_cons, h2, ih]
    · have h1 : (a.1 != n) = true := by simp [hn]
      rw [h1, if_pos rfl, List.find?_cons, List.find?_cons]
      cases hq : (a.1 == q) with
      | true => rfl
      | false => exact ih

theorem fsRead_fsWrite_ne (fs : FS) (n c q : String) (h : q ≠ n) :
    fsRead (fsWrite fs n c) q = fsRead fs q := by
  unfold fsRead fsWrite
  rw [List.find?_cons]
  have h2 : (n == q) = false := by
    rw [beq_eq_false_iff_ne]
    exact fun hh => h hh.symm
  rw [h2, fsRead_filter_ne fs n q h]

theorem fsExists_fsRemove_self (fs : FS) (n : String) :
    fsExists (fsRemove fs n) n = false := by
  unfold fsExists fsRemove
  induction fs with
  | nil => rfl
  | cons a fs ih =>
    rw [List.filter_cons]
    by_cases hn : a.1 = n
    · have h1 : (a.1 != n) = false := by simp [hn]
      rw [h1, if_neg (by simp)]
      exact ih
    · have h1 : (a.1 != n) = true := by simp [hn]
      have h2 : (a.1 == n) = false := by rw [beq_eq_false_iff_ne]; exact hn
      rw [h1, if_pos rfl, List.any_cons, h2, Bool.false_or]
      exact ih

theorem fsExists_fsRemove_ne (fs : FS) (n q : String) (h : q ≠ n) :
    fsExists (fsRemove fs n) q = fsExists fs q := by
  unfold fsExists fsRemove
  exact fsExists_filter_ne fs n q h

/-! ## Session file names are pairwise distinct -/

theorem codeFileName_ne_testFileName (req : String) :
    codeFileName req ≠ testFileName req := by
  intro h
  have hl := congrArg String.length h
  rw [codeFileName, testFileName, String.length_append, String.length_append,
    String.length_append,
    show (".py" : String).length = 3 from by decide,
    show ("test_" : String).length = 5 from by decide] at hl
  omega

theorem logFileName_ne_codeFileName (req ts : String) :
    logFileName req ts ≠ codeFileName req := by
  intro h
  have hl := congrArg String.length h
  rw [logFileName, codeFileName, String.length_append, String.length_append,
    String.length_append, String.length_append,
    show (".py" : String).length = 3 from by decide,
    show (".log" : String).length = 4 from by decide,
    show ("_" : String).length = 1 from by decide] at hl
  omega

theorem logFileName_ne_testFileName (req ts : String) (h15 : ts.length = 15) :
    logFileName req ts ≠ testFileName req := by
  intro h
  have hl := congrArg String.length h
  rw [logFileName, testFileName, String.length_append, String.length_append,
    String.length_append, String.length_append, String.length_append,
    show (".py" : String).length = 3 from by decide,
    show ("test_" : String).length = 5 from by decide,
    show (".log" : String).length = 4 from by decide,
    show ("_" : String).length = 1 from by decide, h15] at hl
  omega

/-! ## Lemmas about the attempt loop -/

theorem fix_code_ok (m : Model) (a b c d e : String)
    (h : ∃ v, m.fixResp a b c d e = Except.ok v) :
    ∃ w, fix_code m a b c d e = Except.ok w := by
  obtain ⟨v, hv⟩ := h
  exact ⟨stripFences e v, by unfold fix_code; rw [hv]⟩

theorem testFixLoop_runnerCalls_le (m : Model) (backend : Nat → Bool × String)
    (req lang cn tn ts : String) (N : Nat) :
    ∀ r code fs rc fc ws,
      (testFixLoop m backend req lang cn tn ts N r code fs rc fc ws).runnerCalls ≤ rc + r := by
  intro r
  induction r with
  | zero => intro code fs rc fc ws; simp [testFixLoop]
  | succ r ih =>
    intro code fs rc fc ws
    simp only [testFixLoop]
    split
    · simp
    · split
      · split
        · simp
        · exact le_trans (ih _ _ _ _ _) (by omega)
      · simp

theorem run_tests_of_exists (fs : FS) (res : Bool × String) (tn : String)
    (h : fsExists fs tn = true) : run_tests fs res tn = res := by
  unfold run_tests
  rw [h]
  simp

theorem testFixLoop_all_fail (m : Model) (backend : Nat → Bool × String)
    (req lang cn tn ts : String) (N : Nat)
    (hfix : ∀ a b c d e, ∃ v, m.fixResp a b c d e = Except.ok v)
    (hne : tn ≠ cn) :
    ∀ r code fs rc fc ws,
      (∀ i, i < rc + (r + 1) → (backend i).1 = false) →
      fsExists fs tn = true →
      (testFixLoop m backend req lang cn tn ts N (r + 1) code fs rc fc ws).result.isExhausted = true ∧
      (testFixLoop m backend req lang cn tn ts N (r + 1) code fs rc fc ws).runnerCalls = rc + (r + 1) ∧
      (testFixLoop m backend req lang cn tn ts N (r + 1) code fs rc fc ws).fixCalls = fc + r := by
  intro r
  induction r with
  | zero =>
    intro code fs rc fc ws hb htn
    simp only [testFixLoop, run_tests_of_exists fs (backend rc) tn htn,
      hb rc (by omega), Bool.false_eq_true, if_false, Nat.lt_irrefl]
    simp [SessionResult.isExhausted]
  | succ r ih =>
    intro code fs rc fc ws hb htn
    obtain ⟨w, hw⟩ := fix_code_ok m req code ts (backend rc).2 lang (hfix _ _ _ _ _)
    rw [testFixLoop]
    simp only [run_tests_of_exists fs (backend rc) tn htn, hb rc (by omega)]
    rw [if_neg (by simp), if_pos (Nat.succ_pos r)]
    simp only [hw]
    have htn2 : fsExists (fsWrite fs cn w) tn = true := by
      rw [fsExists_fsWrite_ne fs cn w tn hne]
      exact htn
    obtain ⟨h1, h2, h3⟩ := ih w (fsWrite fs cn w) (rc + 1) (fc + 1) (ws ++ [(cn, w)])
      (fun i hi => hb i (by omega)) htn2
    refine ⟨h1, ?_, ?_⟩
    · rw [h2]; omega
    · rw [h3]; omega

theorem testFixLoop_first_success (m : Model) (backend : Nat → Bool × String)
    (req lang cn tn ts : String) (N : Nat)
    (hfix : ∀ a b c d e, ∃ v, m.fixResp a b c d e = Except.ok v)
    (hne : tn ≠ cn) :
    ∀ j r code fs rc fc ws,
      j < r →
      (∀ i, i < j → (backend (rc + i)).1 = false) →
      (backend (rc + j)).1 = true →
      fsExists fs tn = true →
      (testFixLoop m backend req lang cn tn ts N r code fs rc fc ws).result.attempts?
          = some (N - (r - j - 1)) ∧
      (testFixLoop m backend req lang cn tn ts N r code fs rc fc ws).runnerCalls = rc + j + 1 ∧
      (testFixLoop m backend req lang cn tn ts N r code fs rc fc ws).fixCalls = fc + j := by
  intro j
  induction j with
  | zero =>
    intro r code fs rc fc ws hjr hfail hsucc htn
    obtain ⟨r', rfl⟩ : ∃ r', r = r' + 1 := ⟨r - 1, by omega⟩
    have hs : (backend rc).1 = true := by simpa using hsucc
    rw [testFixLoop]
    simp only [run_tests_of_exists fs (backend rc) tn htn]
    rw [if_pos hs]
    exact ⟨by simp [SessionResult.attempts?], by simp, by simp⟩
  | succ j ihj =>
    intro r code fs rc fc ws hjr hfail hsucc htn
    obtain ⟨r', rfl⟩ : ∃ r', r = r' + 1 := ⟨r - 1, by omega⟩
    have hf0 : (backend rc).1 = false := by simpa using hfail 0 (Nat.succ_pos j)
    obtain ⟨w, hw⟩ := fix_code_ok m req code ts (backend rc).2 lang (hfix _ _ _ _ _)
    rw [testFixLoop]
    simp only [run_tests_of_exists fs (backend rc) tn htn, hf0]
    rw [if_neg (by simp), if_pos (show 0 < r' by omega)]
    simp only [hw]
    have htn2 : fsExists (fsWrite fs cn w) tn = true := by
      rw [fsExists_fsWrite_ne fs cn w tn hne]
      exact htn
    obtain ⟨h1, h2, h3⟩ := ihj r' w (fsWrite fs cn w) (rc + 1) (fc + 1) (ws ++ [(cn, w)])
      (by omega)
      (fun i hi => by
        have hh := hfail (i + 1) (by omega)
        rw [show rc + 1 + i = rc + (i + 1) from by omega]
        exact hh)
      (by
        rw [show rc + 1 + j = rc + (j + 1) from by omega]
        exact hsucc)
      htn2
    refine ⟨?_, ?_, ?_⟩
    · rw [h1]
      congr 1
      omega
    · rw [h2]; omega
    · rw [h3]; omega

theorem testFixLoop_fs_frame (m : Model) (backend : Nat → Bool × String)
    (req lang cn tn ts : String) (N : Nat) :
    ∀ r code fs rc fc ws (name : String), name ≠ cn →
      fsRead (testFixLoop m backend req lang cn tn ts N r code fs rc fc ws).fs name
          = fsRead fs name ∧
      fsExists (testFixLoop m backend req lang cn tn ts N r code fs rc fc ws).fs name
          = fsExists fs name := by
  intro r
  induction r with
  | zero => intro code fs rc fc ws name hname; exact ⟨rfl, rfl⟩
  | succ r ih =>
    intro code fs rc fc ws name hname
    simp only [testFixLoop]
    split
    · exact ⟨rfl, rfl⟩
    · split
      · split
        · exact ⟨rfl, rfl⟩
        · rename_i nc _
          obtain ⟨hr1, hr2⟩ := ih nc (fsWrite fs cn nc) (rc + 1) (fc + 1)
            (ws ++ [(cn, nc)]) name hname
          rw [hr1, hr2, fsRead_fsWrite_ne fs cn nc name hname,
            fsExists_fsWrite_ne fs cn nc name hname]
          exact ⟨rfl, rfl⟩
      · exact ⟨rfl, rfl⟩

theorem testFixLoop_writes (m : Model) (backend : Nat → Bool × String)
    (req lang cn tn ts : String) (N : Nat) :
    ∀ r code fs rc fc ws,
      ∃ extra, (testFixLoop m backend req lang cn tn ts N r code fs rc fc ws).writes
          = ws ++ extra ∧ ∀ p ∈ extra, p.1 = cn := by
  intro r
  induction r with
  | zero =>
    intro code fs rc fc ws
    exact ⟨[], by simp [testFixLoop], by simp⟩
  | succ r ih =>
    intro code fs rc fc ws
    simp only [testFixLoop]
    split
    · exact ⟨[], by simp, by simp⟩
    · split
      · split
        · exact ⟨[], by simp, by simp⟩
        · rename_i nc _
          obtain ⟨extra, he, hp⟩ := ih nc (fsWrite fs cn nc) (rc + 1) (fc + 1)
            (ws ++ [(cn, nc)])
          refine ⟨(cn, nc) :: extra, ?_, ?_⟩
          · rw [he, List.append_assoc]
            rfl
          · intro p hp2
            rcases List.mem_cons.mp hp2 with rfl | hp2
            · rfl
            · exact hp p hp2
      · exact ⟨[], by simp, by simp⟩

/-! ## Session-level claims -/

/-- Claim C3: for every `MAX_ATTEMPTS = N` and every Oracle/Runner
behavior, the session performs at most `N` Runner invocations before
reaching its terminal state (the attempt loop consumes one unit of the
remaining-attempt count per iteration and halts at the ceiling,
whatever the Oracle and Runner return). -/
theorem C3_runner_calls_bounded (m : Model) (backend : Nat → Bool × String) (N : Nat)
    (req ts : String) : (runSession m backend N req ts).runnerCalls ≤ N := by
  simp only [runSession]
  cases hg : generate_code m req "python" with
  | error e => simp [hg]
  | ok code =>
    simp only [hg]
    cases ht : generate_unit_tests m code "python" with
    | error e => simp [ht]
    | ok tests =>
      simp only [ht]
      have hb := testFixLoop_runnerCalls_le m backend req "python" (codeFileName req)
        (testFileName req) tests N N code
        (fsWrite (fsWrite (fsWrite [] (logFileName req ts) "") (codeFileName req) code)
          (testFileName req) tests) 0 0
        [(logFileName req ts, ""), (codeFileName req, code), (testFileName req, tests)]
      exact le_trans hb (by omega)

/-- Claim C1: with `MAX_ATTEMPTS = N`, if no Oracle call fails and the
Runner first reports success on attempt `k ≤ N` (the first `k-1`
subprocess outcomes are failures and the `k`-th is a pass), the session
performs exactly `k` Runner invocations — no attempt `k+1` occurs — and
terminates as Success with `attemptsUsed = k`. -/
theorem C1_success_on_attempt_k (m : Model) (backend : Nat → Bool × String) (N k : Nat)
    (req ts : String)
    (hcode : ∀ a b, ∃ v, m.codeResp a b = Except.ok v)
    (htests : ∀ a b, ∃ v, m.testsResp a b = Except.ok v)
    (hfix : ∀ a b c d e, ∃ v, m.fixResp a b c d e = Except.ok v)
    (hk1 : 1 ≤ k) (hkN : k ≤ N)
    (hfail : ∀ i, i < k - 1 → (backend i).1 = false)
    (hsucc : (backend (k - 1)).1 = true) :
    (runSession m backend N req ts).runnerCalls = k ∧
    (runSession m backend N req ts).result.attempts? = some k := by
  obtain ⟨c, hc⟩ := hcode req "python"
  obtain ⟨t, ht⟩ := htests (stripFences "python" c) "python"
  simp only [runSession, generate_code, generate_unit_tests, hc, ht]
  simp only [List.cons_append, List.nil_append]
  have hne : testFileName req ≠ codeFileName req :=
    fun h => codeFileName_ne_testFileName req h.symm
  obtain ⟨h1, h2, h3⟩ := testFixLoop_first_success m backend req "python"
    (codeFileName req) (testFileName req) (stripFences "python" t) N hfix hne
    (k - 1) N (stripFences "python" c)
    (fsWrite (fsWrite (fsWrite [] (logFileName req ts) "") (codeFileName req)
      (stripFences "python" c)) (testFileName req) (stripFences "python" t))
    0 0
    [(logFileName req ts, ""), (codeFileName req, stripFences "python" c),
      (testFileName req, stripFences "python" t)]
    (by omega)
    (fun i hi => by simpa using hfail i hi)
    (by simpa using hsucc)
    (fsExists_fsWrite_self _ _ _)
  constructor
  · rw [h2]; omega
  · rw [h1]
    congr 1
    omega

/-- Claim C1 witness: `N = 3`, failure on attempt 1, success on
attempt 2 — exactly 2 runner calls, `Success` with `attemptsUsed = 2`. -/
theorem C1_success_on_attempt_k_witness :
    (runSession ⟨fun _ _ => Except.ok "c", fun _ _ => Except.ok "t",
        fun _ _ _ _ _ => Except.ok "f"⟩
      (fun i => (i == 1, "diag")) 3 "req" "20250101_120000").runnerCalls = 2 ∧
    (runSession ⟨fun _ _ => Except.ok "c", fun _ _ => Except.ok "t",
        fun _ _ _ _ _ => Except.ok "f"⟩
      (fun i => (i == 1, "diag")) 3 "req" "20250101_120000").result.attempts? = some 2 :=
  C1_success_on_attempt_k _ _ 3 2 "req" "20250101_120000"
    (fun _ _ => ⟨"c", rfl⟩) (fun _ _ => ⟨"t", rfl⟩) (fun _ _ _ _ _ => ⟨"f", rfl⟩)
    (by omega) (by omega)
    (fun i hi => by
      have : i = 0 := by omega
      subst this
      rfl)
    rfl

theorem isFatal_false_of_isExhausted (res : SessionResult)
    (h : res.isExhausted = true) : res.isFatal = false := by
  cases res with
  | success k c => simp [SessionResult.isExhausted] at h
  | exhausted a b => simp [SessionResult.isFatal]
  | fatalError e => simp [SessionResult.isExhausted] at h

/-- Claim C2: with `MAX_ATTEMPTS = N ≥ 1`, if no Oracle call fails and
the Runner reports failure on all `N` attempts, the session terminates
as ExhaustedAttempts (a non-success distinct from FatalError), after
exactly `N` Runner invocations and exactly `N - 1` repair
(`fix_code`) calls. -/
theorem C2_exhausted_after_N_failures (m : Model) (backend : Nat → Bool × String) (N : Nat)
    (req ts : String)
    (hcode : ∀ a b, ∃ v, m.codeResp a b = Except.ok v)
    (htests : ∀ a b, ∃ v, m.testsResp a b = Except.ok v)
    (hfix : ∀ a b c d e, ∃ v, m.fixResp a b c d e = Except.ok v)
    (hN : 1 ≤ N)
    (hfail : ∀ i, i < N → (backend i).1 = false) :
    (runSession m backend N req ts).result.isExhausted = true ∧
    (runSession m backend N req ts).result.isFatal = false ∧
    (runSession m backend N req ts).runnerCalls = N ∧
    (runSession m backend N req ts).fixCalls = N - 1 := by
  obtain ⟨c, hc⟩ := hcode req "python"
  obtain ⟨t, ht⟩ := htests (stripFences "python" c) "python"
  obtain ⟨N', rfl⟩ : ∃ q, N = q + 1 := ⟨N - 1, by omega⟩
  simp only [runSession, generate_code, generate_unit_tests, hc, ht]
  simp only [List.cons_append, List.nil_append]
  have hne : testFileName req ≠ codeFileName req :=
    fun h => codeFileName_ne_testFileName req h.symm
  obtain ⟨h1, h2, h3⟩ := testFixLoop_all_fail m backend req "python"
    (codeFileName req) (testFileName req) (stripFences "python" t) (N' + 1) hfix hne
    N' (stripFences "python" c)
    (fsWrite (fsWrite (fsWrite [] (logFileName req ts) "") (codeFileName req)
      (stripFences "python" c)) (testFileName req) (stripFences "python" t))
    0 0
    [(logFileName req ts, ""), (codeFileName req, stripFences "python" c),
      (testFileName req, stripFences "python" t)]
    (fun i hi => hfail i (by omega))
    (fsExists_fsWrite_self _ _ _)
  refine ⟨h1, isFatal_false_of_isExhausted _ h1, ?_, ?_⟩
  · rw [h2]; omega
  · rw [h3]; omega

/-- Claim C2 witness: `N = 3`, all attempts fail — `ExhaustedAttempts`
after 3 runner calls and 2 repair calls. -/
theorem C2_exhausted_witness :
    (runSession ⟨fun _ _ => Except.ok "c", fun _ _ => Except.ok "t",
        fun _ _ _ _ _ => Except.ok "f"⟩
      (fun _ => (false, "diag")) 3 "req" "20250101_120000").result.isExhausted = true ∧
    (runSession ⟨fun _ _ => Except.ok "c", fun _ _ => Except.ok "t",
        fun _ _ _ _ _ => Except.ok "f"⟩
      (fun _ => (false, "diag")) 3 "req" "20250101_120000").result.isFatal = false ∧
    (runSession ⟨fun _ _ => Except.ok "c", fun _ _ => Except.ok "t",
        fun _ _ _ _ _ => Except.ok "f"⟩
      (fun _ => (false, "diag")) 3 "req" "20250101_120000").runnerCalls = 3 ∧
    (runSession ⟨fun _ _ => Except.ok "c", fun _ _ => Except.ok "t",
        fun _ _ _ _ _ => Except.ok "f"⟩
      (fun _ => (false, "diag")) 3 "req" "20250101_120000").fixCalls = 2 :=
  C2_exhausted_after_N_failures _ _ 3 "req" "20250101_120000"
    (fun _ _ => ⟨"c", rfl⟩) (fun _ _ => ⟨"t", rfl⟩) (fun _ _ _ _ _ => ⟨"f", rfl⟩)
    (by omega) (fun _ _ => rfl)

theorem cleanupFS_code (fs : FS) (cn tn : String) (h : cn ≠ tn) :
    fsExists (cleanupFS fs cn tn) cn = false := by
  unfold cleanupFS
  rw [fsExists_fsRemove_ne _ tn cn h]
  exact fsExists_fsRemove_self _ _

theorem cleanupFS_test (fs : FS) (cn tn : String) :
    fsExists (cleanupFS fs cn tn) tn = false :=
  fsExists_fsRemove_self _ _

theorem cleanupFS_other (fs : FS) (cn tn q : String) (h1 : q ≠ cn) (h2 : q ≠ tn) :
    fsExists (cleanupFS fs cn tn) q = fsExists fs q := by
  unfold cleanupFS
  rw [fsExists_fsRemove_ne _ tn q h2, fsExists_fsRemove_ne _ cn q h1]

/-- Claim C5: if the very first code-generation Oracle call fails, the
session terminates as FatalError, performs zero Runner invocations, and
leaves no Artifact behind: the only write of the session is the log
file, the code and test files never existed (not even before cleanup),
and they do not exist after cleanup either. -/
theorem C5_first_generation_fails (m : Model) (backend : Nat → Bool × String) (N : Nat)
    (req ts e : String) (h15 : ts.length = 15)
    (he : m.codeResp req "python" = Except.error e) :
    (runSession m backend N req ts).result.isFatal = true ∧
    (runSession m backend N req ts).runnerCalls = 0 ∧
    (runSession m backend N req ts).writes = [(logFileName req ts, "")] ∧
    fsExists (runSession m backend N req ts).fsPre (codeFileName req) = false ∧
    fsExists (runSession m backend N req ts).fsPre (testFileName req) = false ∧
    fsExists (runSession m backend N req ts).fs (codeFileName req) = false ∧
    fsExists (runSession m backend N req ts).fs (testFileName req) = false := by
  have hct := codeFileName_ne_testFileName req
  have hlc := logFileName_ne_codeFileName req ts
  have hlt := logFileName_ne_testFileName req ts h15
  simp only [runSession, generate_code, he]
  refine ⟨by trivial, by trivial, by trivial, ?_, ?_, ?_, ?_⟩
  · rw [fsExists_fsWrite_ne _ _ _ _ (Ne.symm hlc)]
    rfl
  · rw [fsExists_fsWrite_ne _ _ _ _ (Ne.symm hlt)]
    rfl
  · exact cleanupFS_code _ _ _ hct
  · exact cleanupFS_test _ _ _

/-- Claim C5 witness: a failing first generation call at concrete
inputs. -/
theorem C5_first_generation_fails_witness :
    (runSession ⟨fun _ _ => Except.error "boom", fun _ _ => Except.ok "t",
        fun _ _ _ _ _ => Except.ok "f"⟩
      (fun _ => (true, "out")) 3 "req" "20250101_120000").result.isFatal = true ∧
    (runSession ⟨fun _ _ => Except.error "boom", fun _ _ => Except.ok "t",
        fun _ _ _ _ _ => Except.ok "f"⟩
      (fun _ => (true, "out")) 3 "req" "20250101_120000").runnerCalls = 0 ∧
    (runSession ⟨fun _ _ => Except.error "boom", fun _ _ => Except.ok "t",
        fun _ _ _ _ _ => Except.ok "f"⟩
      (fun _ => (true, "out")) 3 "req" "20250101_120000").writes
        = [(logFileName "req" "20250101_120000", "")] ∧
    fsExists (runSession ⟨fun _ _ => Except.error "boom", fun _ _ => Except.ok "t",
        fun _ _ _ _ _ => Except.ok "f"⟩
      (fun _ => (true, "out")) 3 "req" "20250101_120000").fsPre (codeFileName "req") = false ∧
    fsExists (runSession ⟨fun _ _ => Except.error "boom", fun _ _ => Except.ok "t",
        fun _ _ _ _ _ => Except.ok "f"⟩
      (fun _ => (true, "out")) 3 "req" "20250101_120000").fsPre (testFileName "req") = false ∧
    fsExists (runSession ⟨fun _ _ => Except.error "boom", fun _ _ => Except.ok "t",
        fun _ _ _ _ _ => Except.ok "f"⟩
      (fun _ => (true, "out")) 3 "req" "20250101_120000").fs (codeFileName "req") = false ∧
    fsExists (runSession ⟨fun _ _ => Except.error "boom", fun _ _ => Except.ok "t",
        fun _ _ _ _ _ => Except.ok "f"⟩
      (fun _ => (true, "out")) 3 "req" "20250101_120000").fs (testFileName "req") = false :=
  C5_first_generation_fails _ _ 3 "req" "20250101_120000" "boom" (by decide) rfl

/-- Claim C6: when the test Artifact file does not exist, `run_tests`
does not raise but returns `passed = false` with the not-found message
as diagnostic (whatever the subprocess backend would have reported),
and the attempt loop treats this exactly like an ordinary failed test
attempt: below the ceiling it proceeds to the repair step with that
message as the diagnostic, and on the last attempt it terminates as
exhausted with that message as the last diagnostic. -/
theorem C6_missing_test_file (fs : FS) (res : Bool × String) (tn : String)
    (hmissing : fsExists fs tn = false) :
    run_tests fs res tn = (false, "Error: Test file not found at " ++ tn) ∧
    (∀ (m : Model) (backend : Nat → Bool × String) (req lang cn tests code : String)
       (N r rc fc : Nat) (ws : List (String × String)) (nc : String),
       fix_code m req code tests ("Error: Test file not found at " ++ tn) lang
           = Except.ok nc →
       testFixLoop m backend req lang cn tn tests N (r + 2) code fs rc fc ws =
         testFixLoop m backend req lang cn tn tests N (r + 1) nc (fsWrite fs cn nc)
           (rc + 1) (fc + 1) (ws ++ [(cn, nc)])) ∧
    (∀ (m : Model) (backend : Nat → Bool × String) (req lang cn tests code : String)
       (N rc fc : Nat) (ws : List (String × String)),
       testFixLoop m backend req lang cn tn tests N 1 code fs rc fc ws =
         ⟨SessionResult.exhausted code ("Error: Test file not found at " ++ tn),
           fs, rc + 1, fc, ws⟩) := by
  have hrt : ∀ b : Bool × String,
      run_tests fs b tn = (false, "Error: Test file not found at " ++ tn) := by
    intro b
    unfold run_tests
    rw [hmissing]
    simp
  refine ⟨hrt res, ?_, ?_⟩
  · intro m backend req lang cn tests code N r rc fc ws nc hfx
    rw [testFixLoop]
    simp only [hrt (backend rc)]
    rw [if_neg (by simp), if_pos (Nat.succ_pos r)]
    simp only [hfx]
  · intro m backend req lang cn tests code N rc fc ws
    rw [testFixLoop]
    simp only [hrt (backend rc)]
    rw [if_neg (by simp), if_neg (by omega)]

/-- Claim C6 witness: on an empty filesystem the runner reports the
not-found failure even though the backend would have passed, and one
loop step proceeds to repair with that diagnostic. -/
theorem C6_missing_test_file_witness :
    run_tests [] (true, "all passed") "test_req.py"
        = (false, "Error: Test file not found at " ++ "test_req.py") ∧
    testFixLoop ⟨fun _ _ => Except.ok "c", fun _ _ => Except.ok "t",
        fun _ _ _ _ _ => Except.ok "f"⟩ (fun _ => (true, "all passed"))
        "req" "python" "req.py" "test_req.py" "t" 3 (1 + 2) "c" [] 0 0 [] =
      testFixLoop ⟨fun _ _ => Except.ok "c", fun _ _ => Except.ok "t",
          fun _ _ _ _ _ => Except.ok "f"⟩ (fun _ => (true, "all passed"))
          "req" "python" "req.py" "test_req.py" "t" 3 (1 + 1) "f" (fsWrite [] "req.py" "f")
          (0 + 1) (0 + 1) ([] ++ [("req.py", "f")]) := by
  have h := C6_missing_test_file [] (true, "all passed") "test_req.py" rfl
  exact ⟨h.1, h.2.1 _ _ "req" "python" "req.py" "t" "c" 3 1 0 0 [] "f" rfl⟩

/-- Claim C4: on every terminal outcome — Success, ExhaustedAttempts,
or FatalError (including an Oracle failure mid-session) — the cleanup
block runs exactly once and removes the code and test Artifacts; every
write of the session other than the log file is gone afterwards, while
the per-session log file survives cleanup as the only durable residue. -/
theorem C4_cleanup_every_path (m : Model) (backend : Nat → Bool × String) (N : Nat)
    (req ts : String) (h15 : ts.length = 15) :
    (runSession m backend N req ts).cleanupRuns = 1 ∧
    fsExists (runSession m backend N req ts).fs (codeFileName req) = false ∧
    fsExists (runSession m backend N req ts).fs (testFileName req) = false ∧
    fsExists (runSession m backend N req ts).fs (logFileName req ts) = true ∧
    (∀ p ∈ (runSession m backend N req ts).writes,
       p.1 ≠ logFileName req ts →
       fsExists (runSession m backend N req ts).fs p.1 = false) := by
  have hct := codeFileName_ne_testFileName req
  have hlc := logFileName_ne_codeFileName req ts
  have hlt := logFileName_ne_testFileName req ts h15
  simp only [runSession]
  cases hg : generate_code m req "python" with
  | error e =>
    simp only [hg]
    refine ⟨by trivial, cleanupFS_code _ _ _ hct, cleanupFS_test _ _ _, ?_, ?_⟩
    · rw [cleanupFS_other _ _ _ _ hlc hlt]
      exact fsExists_fsWrite_self _ _ _
    · intro p hp hne
      cases hp with
      | head => exact absurd rfl hne
      | tail _ hp => cases hp
  | ok code =>
    simp only [hg]
    cases ht : generate_unit_tests m code "python" with
    | error e =>
      simp only [ht]
      refine ⟨by trivial, cleanupFS_code _ _ _ hct, cleanupFS_test _ _ _, ?_, ?_⟩
      · rw [cleanupFS_other _ _ _ _ hlc hlt,
          fsExists_fsWrite_ne _ _ _ _ hlc]
        exact fsExists_fsWrite_self _ _ _
      · intro p hp hne
        cases hp with
        | head => exact absurd rfl hne
        | tail _ hp =>
          cases hp with
          | head => exact cleanupFS_code _ _ _ hct
          | tail _ hp => cases hp
    | ok tests =>
      simp only [ht]
      simp only [List.cons_append, List.nil_append]
      obtain ⟨hread, hex⟩ := testFixLoop_fs_frame m backend req "python" (codeFileName req)
        (testFileName req) tests N N code
        (fsWrite (fsWrite (fsWrite [] (logFileName req ts) "") (codeFileName req) code)
          (testFileName req) tests) 0 0
        [(logFileName req ts, ""), (codeFileName req, code), (testFileName req, tests)]
        (logFileName req ts) hlc
      obtain ⟨extra, hw, hpcn⟩ := testFixLoop_writes m backend req "python" (codeFileName req)
        (testFileName req) tests N N code
        (fsWrite (fsWrite (fsWrite [] (logFileName req ts) "") (codeFileName req) code)
          (testFileName req) tests) 0 0
        [(logFileName req ts, ""), (codeFileName req, code), (testFileName req, tests)]
      refine ⟨by trivial, cleanupFS_code _ _ _ hct, cleanupFS_test _ _ _, ?_, ?_⟩
      · rw [cleanupFS_other _ _ _ _ hlc hlt, hex,
          fsExists_fsWrite_ne _ _ _ _ hlt, fsExists_fsWrite_ne _ _ _ _ hlc]
        exact fsExists_fsWrite_self _ _ _
      · intro p hp hne
        rw [hw] at hp
        rcases List.mem_append.mp hp with hp | hp
        · cases hp with
          | head => exact absurd rfl hne
          | tail _ hp =>
            cases hp with
            | head => exact cleanupFS_code _ _ _ hct
            | tail _ hp =>
              cases hp with
              | head => exact cleanupFS_test _ _ _
              | tail _ hp => cases hp
        · rw [hpcn p hp]
          exact cleanupFS_code _ _ _ hct

/-- Claim C4 witness: cleanup facts at a concrete all-fail session. -/
theorem C4_cleanup_witness :
    (runSession ⟨fun _ _ => Except.ok "c", fun _ _ => Except.ok "t",
        fun _ _ _ _ _ => Except.ok "f"⟩
      (fun _ => (false, "diag")) 3 "req" "20250101_120000").cleanupRuns = 1 ∧
    fsExists (runSession ⟨fun _ _ => Except.ok "c", fun _ _ => Except.ok "t",
        fun _ _ _ _ _ => Except.ok "f"⟩
      (fun _ => (false, "diag")) 3 "req" "20250101_120000").fs (codeFileName "req") = false ∧
    fsExists (runSession ⟨fun _ _ => Except.ok "c", fun _ _ => Except.ok "t",
        fun _ _ _ _ _ => Except.ok "f"⟩
      (fun _ => (false, "diag")) 3 "req" "20250101_120000").fs (testFileName "req") = false ∧
    fsExists (runSession ⟨fun _ _ => Except.ok "c", fun _ _ => Except.ok "t",
        fun _ _ _ _ _ => Except.ok "f"⟩
      (fun _ => (false, "diag")) 3 "req" "20250101_120000").fs
        (logFileName "req" "20250101_120000") = true ∧
    (∀ p ∈ (runSession ⟨fun _ _ => Except.ok "c", fun _ _ => Except.ok "t",
        fun _ _ _ _ _ => Except.ok "f"⟩
      (fun _ => (false, "diag")) 3 "req" "20250101_120000").writes,
       p.1 ≠ logFileName "req" "20250101_120000" →
       fsExists (runSession ⟨fun _ _ => Except.ok "c", fun _ _ => Except.ok "t",
           fun _ _ _ _ _ => Except.ok "f"⟩
         (fun _ => (false, "diag")) 3 "req" "20250101_120000").fs p.1 = false) :=
  C4_cleanup_every_path _ _ 3 "req" "20250101_120000" (by decide)

/-- Claim C10: within a session the test Artifact is written exactly
once (right after test generation) and never overwritten afterwards:
the session write trace contains exactly one entry under the test file
name, carrying the generated test content, and at the end of the
session (before cleanup) the test file still holds that original
content, every repair having written only the code file. -/
theorem C10_test_artifact_written_once (m : Model) (backend : Nat → Bool × String)
    (N : Nat) (req ts code0 tests0 : String) (h15 : ts.length = 15)
    (hc : generate_code m req "python" = Except.ok code0)
    (ht : generate_unit_tests m code0 "python" = Except.ok tests0) :
    ((runSession m backend N req ts).writes.filter (fun p => p.1 == testFileName req))
        = [(testFileName req, tests0)] ∧
    fsRead (runSession m backend N req ts).fsPre (testFileName req) = some tests0 := by
  have hct := codeFileName_ne_testFileName req
  have hlt := logFileName_ne_testFileName req ts h15
  simp only [runSession, hc, ht]
  simp only [List.cons_append, List.nil_append]
  obtain ⟨extra, hw, hpcn⟩ := testFixLoop_writes m backend req "python" (codeFileName req)
    (testFileName req) tests0 N N code0
    (fsWrite (fsWrite (fsWrite [] (logFileName req ts) "") (codeFileName req) code0)
      (testFileName req) tests0) 0 0
    [(logFileName req ts, ""), (codeFileName req, code0), (testFileName req, tests0)]
  obtain ⟨hread, hex⟩ := testFixLoop_fs_frame m backend req "python" (codeFileName req)
    (testFileName req) tests0 N N code0
    (fsWrite (fsWrite (fsWrite [] (logFileName req ts) "") (codeFileName req) code0)
      (testFileName req) tests0) 0 0
    [(logFileName req ts, ""), (codeFileName req, code0), (testFileName req, tests0)]
    (testFileName req) (fun h => hct h.symm)
  constructor
  · rw [hw, List.filter_append]
    have hextra : extra.filter (fun p => p.1 == testFileName req) = [] := by
      rw [List.filter_eq_nil_iff]
      intro p hp
      simp [hpcn p hp, hct]
    rw [hextra, List.append_nil]
    simp [List.filter_cons, hlt, hct]
  · rw [hread, fsRead_fsWrite_self]

/-- Claim C10 witness: in a concrete all-fail session the test file is
written once with the generated tests and still holds them at session
end. -/
theorem C10_test_artifact_witness :
    ((runSession ⟨fun _ _ => Except.ok "c", fun _ _ => Except.ok "t",
        fun _ _ _ _ _ => Except.ok "f"⟩
      (fun _ => (false, "diag")) 3 "req" "20250101_120000").writes.filter
        (fun p => p.1 == testFileName "req")) = [(testFileName "req", stripFences "python" "t")] ∧
    fsRead (runSession ⟨fun _ _ => Except.ok "c", fun _ _ => Except.ok "t",
        fun _ _ _ _ _ => Except.ok "f"⟩
      (fun _ => (false, "diag")) 3 "req" "20250101_120000").fsPre (testFileName "req")
        = some (stripFences "python" "t") :=
  C10_test_artifact_written_once _ _ 3 "req" "20250101_120000"
    (stripFences "python" "c") (stripFences "python" "t") (by decide) rfl rfl
